import Mathlib

/-!
Verification of the agentic-hackathon repository.

This file gives a shallow embedding, in Lean 4, of the parts of the
repository that the specification talks about:

* `src/src/agents/langgraph_workflow.py` — the four-stage LangGraph
  ranking pipeline (coordinator → analyzer → ranker → saver), its helper
  functions `calculate_priority_scores`, `make_decision`,
  `save_to_database`, and the graph built by `create_ranking_workflow`;
* `demo/auto_sync_lms.py` — the file-hash polling loop
  `AutoSyncMonitor.watch_and_sync`;
* `backend/synthesis_architect.py` — `generate_proposal`;
* `backend/seed_mock_data.py` — `get_embedding` and the
  Knowledge_Graph insertion loop of `seed_demo_data`.

Hosted services (the Fireworks / Gemini LLM endpoints, MongoDB) are
modelled as oracles passed in explicitly: an `Env` record carries the
outcome of each external interaction, and database writes are modelled
as an explicit effect log.  Python floats are modelled as `ℚ`; for the
constant scores of this code the IEEE results coincide exactly with the
rational ones (all products and sums here are exact halves).  Python
exceptions are modelled with `Except String`.  Logging calls are pure
I/O and are dropped.
-/

/-- ASCII lowercase of a string, as a list of characters.  Models Python
`str.lower()` on the ASCII strings this repository manipulates. -/
def pyLower (s : String) : List Char := s.data.map Char.toLower

/-- Predicate `startsWithL hay needle` is true when `needle` is a leading segment of
`hay`. -/
def startsWithL : List Char → List Char → Bool
  | _, [] => true
  | [], _ :: _ => false
  | a :: as, b :: bs => a == b && startsWithL as bs

/-- Predicate `infixOccurs hay needle` is true when `needle` occurs contiguously in
`hay`. -/
def infixOccurs : List Char → List Char → Bool
  | [], needle => needle.isEmpty
  | a :: t, needle => startsWithL (a :: t) needle || infixOccurs t needle

/-- Python's substring test `needle in hay` for strings, on character
lists. -/
def pyStrIn (needle hay : List Char) : Bool := infixOccurs hay needle

/-- A project dict as used throughout `langgraph_workflow.py`
(`{"name": …, "complexity": …, "due_date": …}`). -/
structure Project where
  name : String
  complexity : String
  due_date : String
deriving DecidableEq, Repr

/-- The sprint-context dict built by the coordinator
(`{'weekly_capacity': 20, 'allocated_hours': 16.0, 'active_tasks': 2}`). -/
structure SprintContext where
  weekly_capacity : ℚ
  allocated_hours : ℚ
  active_tasks : ℕ
deriving DecidableEq, Repr

/-- The contextual-signals dict returned by `query_long_term_memory`. -/
structure Signals where
  recent_activities : List String
  related_concepts : List String
  struggle_indicators : List String
deriving DecidableEq, Repr

/-- The Pydantic model `ProjectAnalysisReasoning` produced by the
structured-output parse of the coordinator's DeepSeek call. -/
structure ProjectAnalysisReasoning where
  key_insights : List String
  prioritization_logic : String
  capacity_strategy : String
  recommended_focus : List String
  potential_risks : List String
deriving DecidableEq, Repr

/-- The possible Python values of the `llm_reasoning` state key, and of
the `llm_insights` argument of the helper functions: `None` (the default
argument), the error dict `{"error": str(e)}` set when the DeepSeek call
fails, or `reasoning.dict()` (which always carries a `recommended_focus`
key).  `pyNone` is falsy; the two dicts are truthy; only
`reasoningDict` has the key `'recommended_focus'`. -/
inductive LLMReasoningVal where
  | pyNone
  | errDict (msg : String)
  | reasoningDict (r : ProjectAnalysisReasoning)
deriving DecidableEq, Repr

/-- The score dict returned by `calculate_priority_scores`. -/
structure Scores where
  interest : ℚ
  difficulty : ℚ
  urgency : ℚ
  context : ℚ
  final : ℚ
deriving DecidableEq, Repr

/-- Function `query_long_term_memory` from `langgraph_workflow.py`: returns a
hard-coded dict, ignoring its argument. -/
def query_long_term_memory (_project : Project) : Signals :=
  { recent_activities := ["activity1", "activity2"]
    related_concepts := ["concept1", "concept2"]
    struggle_indicators := [] }

/-- Function `calculate_priority_scores` from `langgraph_workflow.py`.  Base
scores are the constants 75/60/80/50; the context score gains +20 when
`llm_insights` is truthy, has the key `'recommended_focus'` (i.e. is the
reasoning dict), and some entry of that list contains the lowercased
project name as a substring; the final score is the weighted sum with
weights 0.30/0.35/0.20/0.15. -/
def calculate_priority_scores (project : Project) (_signals : Signals)
    (_context : Option SprintContext) (llm_insights : LLMReasoningVal) : Scores :=
  let interest : ℚ := 75
  let difficulty : ℚ := 60
  let urgency : ℚ := 80
  let context : ℚ :=
    match llm_insights with
    | .reasoningDict r =>
        if r.recommended_focus.any
            (fun rec => pyStrIn (pyLower project.name) (pyLower rec)) then
          50 + 20
        else 50
    | _ => 50
  let final : ℚ :=
    interest * 0.30 + difficulty * 0.35 + urgency * 0.20 + context * 0.15
  { interest := interest, difficulty := difficulty, urgency := urgency,
    context := context, final := final }

/-- Function `make_decision` from `langgraph_workflow.py`.  The scan of
`potential_risks` in the source only logs and does not affect the
returned value, so the result depends only on `priority_score`. -/
def make_decision (priority_score : ℚ) (_project : Project)
    (_llm_insights : LLMReasoningVal) : String :=
  if priority_score ≥ 70 then "EXECUTE_NOW"
  else if priority_score ≥ 50 then "BREAK_DOWN"
  else "DEFER"

/-- One element of the `analyzed_projects` list as built by the analyzer's
loop. -/
structure Analyzed where
  project : Project
  scores : Scores
  priority_score : ℚ
  decision : String
deriving DecidableEq, Repr

/-- One element of `ranked_results`: an analyzed project together with the
`rank` field the ranking agent attaches. -/
structure RankedResult where
  result : Analyzed
  rank : ℕ
deriving DecidableEq, Repr

/-- The `metadata` dict written by the coordinator. -/
structure Metadata where
  start_time : String
  deepseek_invoked_at : String
  deepseek_model : String
deriving DecidableEq, Repr

/-- The shared LangGraph state `ProjectRankingState`.  `none` models an
absent or empty-dict value (the demo initial state sets
`sprint_context` and `metadata` to `{}` and omits `llm_reasoning`). -/
structure PipelineState where
  projects : List Project
  sprint_context : Option SprintContext
  analyzed_projects : List Analyzed
  ranked_results : List RankedResult
  metadata : Option Metadata
  llm_reasoning : Option LLMReasoningVal
deriving DecidableEq, Repr

/-- A partial state dict returned by an agent node; a `none` field is a
key absent from the returned dict. -/
structure StateUpdate where
  projects : Option (List Project) := none
  sprint_context : Option (Option SprintContext) := none
  analyzed_projects : Option (List Analyzed) := none
  ranked_results : Option (List RankedResult) := none
  metadata : Option (Option Metadata) := none
  llm_reasoning : Option (Option LLMReasoningVal) := none
deriving DecidableEq, Repr

/-- LangGraph's merge of a node's returned partial state into the shared
state: `analyzed_projects` is declared `Annotated[List[dict],
operator.add]`, so a returned value is appended to the existing one;
every other key is a plain last-value channel and overwrites. -/
def mergeUpdate (s : PipelineState) (u : StateUpdate) : PipelineState :=
  { projects := u.projects.getD s.projects
    sprint_context := u.sprint_context.getD s.sprint_context
    analyzed_projects := s.analyzed_projects ++ u.analyzed_projects.getD []
    ranked_results := u.ranked_results.getD s.ranked_results
    metadata := u.metadata.getD s.metadata
    llm_reasoning := u.llm_reasoning.getD s.llm_reasoning }

/-- The purpose of a chat-completion call made by the pipeline. -/
inductive CallPurpose where
  | strategic
  | synthesis
deriving DecidableEq, Repr

/-- The LangGraph node names registered by `create_ranking_workflow`. -/
inductive Node where
  | coordinator
  | analyzer
  | ranker
  | saver
deriving DecidableEq, Repr

/-- An observable external effect of a run: a chat-completion invocation
of the hosted DeepSeek endpoint, or one call to `save_to_database`. -/
inductive Effect where
  | llmCall (node : Node) (purpose : CallPurpose)
  | dbSaveCall (r : RankedResult)
deriving DecidableEq, Repr

/-- The environment of one run: whether `FIREWORKS_API_KEY` is set, the
outcome of the coordinator's structured strategic-analysis call
(`chain.invoke`, output parsing included), the outcome of the ranker's
synthesis call (`llm.invoke`), and a wall-clock reading for the
metadata timestamps. -/
structure Env where
  apiKeyPresent : Bool
  strategicResult : Except String ProjectAnalysisReasoning
  synthesisResult : Except String String
  nowIso : String

/-- Function `create_deepseek_llm` from `langgraph_workflow.py`: raises a
`ValueError` when `FIREWORKS_API_KEY` is unset, otherwise constructs the
`ChatFireworks` client (represented by `Unit`; call outcomes live in
`Env`). -/
def create_deepseek_llm (env : Env) : Except String Unit :=
  if env.apiKeyPresent then .ok ()
  else .error "FIREWORKS_API_KEY environment variable required"

/-- The `llm_reasoning` value the coordinator stores: `reasoning.dict()`
when the strategic call succeeds, `{"error": str(e)}` when it raises. -/
def pipelineInsights (env : Env) : LLMReasoningVal :=
  match env.strategicResult with
  | .ok r => .reasoningDict r
  | .error e => .errDict e

/-- The hard-coded sprint context the coordinator "fetches". -/
def sprintFetched : SprintContext :=
  { weekly_capacity := 20, allocated_hours := 16, active_tasks := 2 }

/-- The `metadata` dict the coordinator writes. -/
def coordMeta (env : Env) : Metadata :=
  { start_time := env.nowIso, deepseek_invoked_at := env.nowIso,
    deepseek_model := "accounts/fireworks/models/deepseek-v3p2" }

/-- Agent `project_manager_agent` from `langgraph_workflow.py`: fetches the
hard-coded sprint context, constructs the DeepSeek client — outside any
try/except —, makes the strategic-analysis call inside `try` (a failure
is caught and recorded in `llm_reasoning`), and returns
`{**state, 'sprint_context': …, 'llm_reasoning': …, 'metadata': …}`, a
dict containing every state key. -/
def project_manager_agent (env : Env) (s : PipelineState) :
    Except String (StateUpdate × List Effect) := do
  let _ ← create_deepseek_llm env
  .ok ({ projects := some s.projects
         sprint_context := some (some sprintFetched)
         analyzed_projects := some s.analyzed_projects
         ranked_results := some s.ranked_results
         metadata := some (some (coordMeta env))
         llm_reasoning := some (some (pipelineInsights env)) },
       [.llmCall .coordinator .strategic])

/-- The body of the analyzer's per-project loop: query long-term memory,
compute the scores, and make the decision. -/
def analyze_project (sprint : Option SprintContext)
    (insights : LLMReasoningVal) (p : Project) : Analyzed :=
  let signals := query_long_term_memory p
  let scores := calculate_priority_scores p signals sprint insights
  { project := p, scores := scores, priority_score := scores.final,
    decision := make_decision scores.final p insights }

/-- Agent `project_analyzer_agent` from `langgraph_workflow.py`: analyzes each
project in order and returns only the `analyzed_projects` key.  It
reads `state.get('llm_reasoning', {})`; the empty-dict default behaves
like `None` in the helpers (falsy, no `'recommended_focus'` key). -/
def project_analyzer_agent (_env : Env) (s : PipelineState) :
    Except String (StateUpdate × List Effect) :=
  let insights := s.llm_reasoning.getD .pyNone
  .ok ({ analyzed_projects :=
           some (s.projects.map (analyze_project s.sprint_context insights)) },
       [])

/-- The comparison `ranking_agent` sorts by: descending `priority_score`
(`sorted(…, key=lambda x: x['priority_score'], reverse=True)`). -/
def scoreDesc (a b : Analyzed) : Bool :=
  decide (b.priority_score ≤ a.priority_score)

/-- The ranking computation of `ranking_agent`: stable sort by
`priority_score` descending (Python's `sorted` with `reverse=True` keeps
the original order of equal keys, as `mergeSort` does), keep the first
3, and attach `rank` fields 1, 2, …. -/
def rank_projects (analyzed : List Analyzed) : List RankedResult :=
  let ranked := (analyzed.mergeSort scoreDesc).take 3
  ranked.enum.map (fun ir => { result := ir.2, rank := ir.1 + 1 })

/-- Agent `ranking_agent` from `langgraph_workflow.py`: constructs the DeepSeek
client — outside any try/except —, makes the synthesis call inside
`try` (its result is only logged; a failure is caught and ignored),
then sorts, truncates and ranks, returning only `ranked_results`. -/
def ranking_agent (env : Env) (s : PipelineState) :
    Except String (StateUpdate × List Effect) := do
  let _ ← create_deepseek_llm env
  .ok ({ ranked_results := some (rank_projects s.analyzed_projects) },
       [.llmCall .ranker .synthesis])

/-- Function `save_to_database` from `langgraph_workflow.py`.  Its entire body is
`pass`: the database is returned unchanged. -/
def save_to_database (db : List RankedResult) (_result : RankedResult) :
    List RankedResult :=
  db

/-- Agent `persistence_agent` from `langgraph_workflow.py`: calls
`save_to_database` once per element of `ranked_results` (each call is
recorded as a `dbSaveCall` effect) and returns `state` itself, a dict
containing every state key. -/
def persistence_agent (_env : Env) (s : PipelineState) :
    Except String (StateUpdate × List Effect) :=
  .ok ({ projects := some s.projects
         sprint_context := some s.sprint_context
         analyzed_projects := some s.analyzed_projects
         ranked_results := some s.ranked_results
         metadata := some s.metadata
         llm_reasoning := some s.llm_reasoning },
       s.ranked_results.map Effect.dbSaveCall)

/-- The node registry built by the four `workflow.add_node` calls. -/
def node_agent : Node → Env → PipelineState →
    Except String (StateUpdate × List Effect)
  | .coordinator => project_manager_agent
  | .analyzer => project_analyzer_agent
  | .ranker => ranking_agent
  | .saver => persistence_agent

/-- The edge map added by `create_ranking_workflow`:
coordinator → analyzer → ranker → saver → END (`none` is END). -/
def workflow_edges : Node → Option Node
  | .coordinator => some .analyzer
  | .analyzer => some .ranker
  | .ranker => some .saver
  | .saver => none

/-- The entry point set by `workflow.set_entry_point("coordinator")`. -/
def entry_point : Node := .coordinator

/-- A compiled workflow: an entry node plus an edge map. -/
structure CompiledWorkflow where
  entry : Node
  edges : Node → Option Node

/-- Function `create_ranking_workflow` from `langgraph_workflow.py`: the compiled
graph with the four nodes, the sequential edges and the entry point. -/
def create_ranking_workflow : CompiledWorkflow :=
  { entry := entry_point, edges := workflow_edges }

/-- Sequential execution of a compiled workflow from a node (`none` is
END), with step fuel.  Returns the trace of executed nodes, the final
state and the in-order effect log; an uncaught agent exception aborts
the run.  Fuel exhaustion is a distinct error used only to express
termination. -/
def graphRun (w : CompiledWorkflow) (env : Env) :
    ℕ → Option Node → PipelineState →
    Except String (List Node × PipelineState × List Effect)
  | _, none, s => .ok ([], s, [])
  | 0, some _, _ => .error "recursion limit reached"
  | fuel + 1, some n, s =>
    match node_agent n env s with
    | .error e => .error e
    | .ok (u, eff) =>
      match graphRun w env fuel (w.edges n) (mergeUpdate s u) with
      | .error e => .error e
      | .ok (tr, s', effs) => .ok (n :: tr, s', eff ++ effs)

/-- Model of `app.invoke(initial_state)`: run the compiled ranking workflow from
its entry point. -/
def runWorkflow (env : Env) (fuel : ℕ) (s : PipelineState) :
    Except String (List Node × PipelineState × List Effect) :=
  graphRun create_ranking_workflow env fuel (some create_ranking_workflow.entry) s

/-- The `analyzed_projects` list the analyzer contributes during a run
that starts from state `s`. -/
def analyzedOf (env : Env) (s : PipelineState) : List Analyzed :=
  s.projects.map (analyze_project (some sprintFetched) (pipelineInsights env))

/-- The `ranked_results` list produced by the ranker during a run that
starts from state `s`.  (The coordinator returns `{**state, …}`, so the
`operator.add` channel has already duplicated any pre-existing
`analyzed_projects` by the time the ranker reads it; the demo initial
state has an empty list there.) -/
def rankedOf (env : Env) (s : PipelineState) : List RankedResult :=
  rank_projects ((s.analyzed_projects ++ s.analyzed_projects) ++ analyzedOf env s)

/-- The final state of a successful run from `s`. -/
def finalStateOf (env : Env) (s : PipelineState) : PipelineState :=
  { projects := s.projects
    sprint_context := some sprintFetched
    analyzed_projects :=
      (((s.analyzed_projects ++ s.analyzed_projects) ++ analyzedOf env s) ++
        ((s.analyzed_projects ++ s.analyzed_projects) ++ analyzedOf env s))
    ranked_results := rankedOf env s
    metadata := some (coordMeta env)
    llm_reasoning := some (pipelineInsights env) }

/-- Closed form of a run with the API key present: the four nodes run in
order and terminate, two chat-completion calls are made, and one
`save_to_database` call is recorded per ranked result. -/
theorem runWorkflow_eq (env : Env) (s : PipelineState) (k : ℕ)
    (h : env.apiKeyPresent = true) :
    runWorkflow env (k + 4) s =
      .ok ([Node.coordinator, .analyzer, .ranker, .saver],
           finalStateOf env s,
           .llmCall .coordinator .strategic :: .llmCall .ranker .synthesis ::
             ((rankedOf env s).map Effect.dbSaveCall ++ [])) := by
  obtain ⟨key, strat, synth, now⟩ := env
  simp only [Env.apiKeyPresent] at h
  subst h
  simp [runWorkflow, graphRun, create_ranking_workflow, entry_point,
    workflow_edges, node_agent, project_manager_agent, project_analyzer_agent,
    ranking_agent, persistence_agent, create_deepseek_llm, mergeUpdate,
    finalStateOf, rankedOf, analyzedOf, Except.bind, bind]

/-- The chat-completion calls recorded in an effect log, in order. -/
def llmCallsOf (effs : List Effect) : List (Node × CallPurpose) :=
  effs.filterMap (fun e => match e with
    | .llmCall n p => some (n, p)
    | .dbSaveCall _ => none)

/-- The `save_to_database` call arguments recorded in an effect log. -/
def dbCallsOf (effs : List Effect) : List RankedResult :=
  effs.filterMap (fun e => match e with
    | .llmCall _ _ => none
    | .dbSaveCall r => some r)

/-- The database contents obtained by replaying every `save_to_database`
call of an effect log against an initial database. -/
def replayDb (db : List RankedResult) : List Effect → List RankedResult
  | [] => db
  | .dbSaveCall r :: rest => replayDb (save_to_database db r) rest
  | .llmCall _ _ :: rest => replayDb db rest

lemma llmCallsOf_cons_llm (n : Node) (p : CallPurpose) (rest : List Effect) :
    llmCallsOf (.llmCall n p :: rest) = (n, p) :: llmCallsOf rest := rfl

lemma llmCallsOf_append (a b : List Effect) :
    llmCallsOf (a ++ b) = llmCallsOf a ++ llmCallsOf b :=
  List.filterMap_append a b _

lemma llmCallsOf_map_dbSaveCall (l : List RankedResult) :
    llmCallsOf (l.map Effect.dbSaveCall) = [] := by
  induction l with
  | nil => rfl
  | cons h t ih => simp only [llmCallsOf, List.map_cons, List.filterMap_cons]; exact ih

lemma dbCallsOf_map_dbSaveCall (l : List RankedResult) :
    dbCallsOf (l.map Effect.dbSaveCall) = l := by
  induction l with
  | nil => rfl
  | cons h t ih => simpa [dbCallsOf, List.filterMap_cons] using ih

lemma replayDb_eq (l : List Effect) (db : List RankedResult) :
    replayDb db l = db := by
  induction l generalizing db with
  | nil => rfl
  | cons h t ih =>
      cases h <;> simp only [replayDb, save_to_database] <;> exact ih _

/-- The three demo projects of the `__main__` block of
`langgraph_workflow.py`. -/
def demoProjects : List Project :=
  [{ name := "Traffic Simulator", complexity := "medium", due_date := "2026-01-14" },
   { name := "Data Viz Course", complexity := "medium", due_date := "2026-01-24" },
   { name := "AI Essay", complexity := "medium", due_date := "2026-01-18" }]

/-- The demo initial state of the `__main__` block. -/
def demoState : PipelineState :=
  { projects := demoProjects, sprint_context := none, analyzed_projects := [],
    ranked_results := [], metadata := none, llm_reasoning := none }

/-- An environment with the API key set but both hosted calls failing. -/
def demoEnvDown : Env :=
  { apiKeyPresent := true, strategicResult := .error "connection refused",
    synthesisResult := .error "connection refused",
    nowIso := "2026-10-12T00:00:00" }

/-- An environment where `FIREWORKS_API_KEY` is unset. -/
def demoEnvNoKey : Env :=
  { apiKeyPresent := false, strategicResult := .error "never invoked",
    synthesisResult := .error "never invoked",
    nowIso := "2026-10-12T00:00:00" }

/-- C1: with the API key available, from every initial state the workflow
built by `create_ranking_workflow` executes exactly the four stages
coordinator, analyzer, ranker, saver — each once, in that order — and
then terminates (any fuel of at least 4 steps suffices and gives the
same successful run). -/
theorem create_ranking_workflow_four_stages (env : Env) (s : PipelineState)
    (fuel : ℕ) (hkey : env.apiKeyPresent = true) (hfuel : 4 ≤ fuel) :
    ∃ s' effs, runWorkflow env fuel s =
      .ok ([Node.coordinator, Node.analyzer, Node.ranker, Node.saver],
           s', effs) := by
  obtain ⟨k, rfl⟩ : ∃ k, fuel = k + 4 := ⟨fuel - 4, by omega⟩
  exact ⟨_, _, runWorkflow_eq env s k hkey⟩

/-- Witness for C1 at the demo initial state. -/
theorem create_ranking_workflow_four_stages_witness :
    demoEnvDown.apiKeyPresent = true ∧ (4 : ℕ) ≤ 4 ∧
    ∃ s' effs, runWorkflow demoEnvDown 4 demoState =
      .ok ([Node.coordinator, Node.analyzer, Node.ranker, Node.saver],
           s', effs) :=
  ⟨rfl, by decide,
   create_ranking_workflow_four_stages demoEnvDown demoState 4 rfl (by decide)⟩

/-- C7: a complete run of the pipeline makes exactly two chat-completion
calls, in order: the coordinator's strategic-analysis invocation and the
ranker's synthesis invocation; the analyzer and the persistence stage
make none. -/
theorem pipeline_exactly_two_llm_calls (env : Env) (s : PipelineState)
    (fuel : ℕ) (hkey : env.apiKeyPresent = true) (hfuel : 4 ≤ fuel) :
    ∃ s' effs, runWorkflow env fuel s =
      .ok ([Node.coordinator, Node.analyzer, Node.ranker, Node.saver],
           s', effs) ∧
      llmCallsOf effs = [(Node.coordinator, CallPurpose.strategic),
                         (Node.ranker, CallPurpose.synthesis)] := by
  obtain ⟨k, rfl⟩ : ∃ k, fuel = k + 4 := ⟨fuel - 4, by omega⟩
  refine ⟨_, _, runWorkflow_eq env s k hkey, ?_⟩
  rw [llmCallsOf_cons_llm, llmCallsOf_cons_llm, llmCallsOf_append,
    llmCallsOf_map_dbSaveCall]
  rfl

/-- Witness for C7 at the demo initial state. -/
theorem pipeline_exactly_two_llm_calls_witness :
    demoEnvDown.apiKeyPresent = true ∧ (4 : ℕ) ≤ 4 ∧
    ∃ s' effs, runWorkflow demoEnvDown 4 demoState =
      .ok ([Node.coordinator, Node.analyzer, Node.ranker, Node.saver],
           s', effs) ∧
      llmCallsOf effs = [(Node.coordinator, CallPurpose.strategic),
                         (Node.ranker, CallPurpose.synthesis)] :=
  ⟨rfl, by decide,
   pipeline_exactly_two_llm_calls demoEnvDown demoState 4 rfl (by decide)⟩

/-- C5 counterexample: when `FIREWORKS_API_KEY` is unset the coordinator's
`create_deepseek_llm()` call — made outside any try/except — raises, and
the exception propagates out of the pipeline instead of being caught. -/
theorem pipeline_raises_without_api_key :
    runWorkflow demoEnvNoKey 5 demoState =
      .error "FIREWORKS_API_KEY environment variable required" := rfl

/-- C5 amended: the chat-completion invocations themselves are wrapped in
try/except — when the strategic call fails the coordinator records
`{"error": …}` in `llm_reasoning` and the run still completes all four
stages (the ranker likewise proceeds when its synthesis call fails) —
but the client construction happens outside the try, so an unset
`FIREWORKS_API_KEY` propagates (see the counterexample). -/
theorem llm_call_failures_are_caught (env : Env) (s : PipelineState)
    (fuel : ℕ) (e : String) (hkey : env.apiKeyPresent = true)
    (hfuel : 4 ≤ fuel) (herr : env.strategicResult = .error e) :
    ∃ s' effs, runWorkflow env fuel s =
      .ok ([Node.coordinator, Node.analyzer, Node.ranker, Node.saver],
           s', effs) ∧
      s'.llm_reasoning = some (.errDict e) := by
  obtain ⟨k, rfl⟩ : ∃ k, fuel = k + 4 := ⟨fuel - 4, by omega⟩
  refine ⟨_, _, runWorkflow_eq env s k hkey, ?_⟩
  simp [finalStateOf, pipelineInsights, herr]

/-- Witness for the amended C5 at the demo initial state. -/
theorem llm_call_failures_are_caught_witness :
    demoEnvDown.apiKeyPresent = true ∧ (4 : ℕ) ≤ 4 ∧
    demoEnvDown.strategicResult = .error "connection refused" ∧
    ∃ s' effs, runWorkflow demoEnvDown 4 demoState =
      .ok ([Node.coordinator, Node.analyzer, Node.ranker, Node.saver],
           s', effs) ∧
      s'.llm_reasoning = some (.errDict "connection refused") :=
  ⟨rfl, by decide, rfl,
   llm_call_failures_are_caught demoEnvDown demoState 4 "connection refused"
     rfl (by decide) rfl⟩

/-- C4: `persistence_agent` does call `save_to_database` once per element
of `ranked_results`, but `save_to_database`'s entire body is `pass`: it
returns the database unchanged, so replaying any effect log stores
nothing and no ranked result is ever persisted. -/
theorem save_to_database_stores_nothing :
    (∀ db r, save_to_database db r = db) ∧
    (∀ db effs, replayDb db effs = db) ∧
    (∀ env s, ∃ u, persistence_agent env s =
        .ok (u, s.ranked_results.map Effect.dbSaveCall) ∧
        dbCallsOf (s.ranked_results.map Effect.dbSaveCall) =
          s.ranked_results) :=
  ⟨fun _ _ => rfl, fun db effs => replayDb_eq effs db,
   fun _ s => ⟨_, rfl, dbCallsOf_map_dbSaveCall s.ranked_results⟩⟩

/-- C2: for every project, `calculate_priority_scores` returns exactly the
constant base scores interest 75, difficulty 60, urgency 80 and context
50 (+20 exactly when the project's name occurs case-insensitively in
some entry of the insights' `recommended_focus` list), and the final
score is the 0.30/0.35/0.20/0.15-weighted sum of these, i.e. 67 without
the boost and 70 with it. -/
theorem calculate_priority_scores_weighted_sum
    (project : Project) (signals : Signals) (sprint : Option SprintContext)
    (insights : LLMReasoningVal) :
    let boosted : Bool :=
      match insights with
      | .reasoningDict r =>
          r.recommended_focus.any
            (fun rec => pyStrIn (pyLower project.name) (pyLower rec))
      | _ => false
    calculate_priority_scores project signals sprint insights =
      { interest := 75, difficulty := 60, urgency := 80,
        context := 50 + (if boosted then 20 else 0),
        final := 0.30 * 75 + 0.35 * 60 + 0.20 * 80 +
          0.15 * (50 + (if boosted then 20 else 0)) } ∧
    (calculate_priority_scores project signals sprint insights).final =
      (if boosted then (70 : ℚ) else 67) ∧
    (boosted = true ↔ ∃ r rec, insights = .reasoningDict r ∧
      rec ∈ r.recommended_focus ∧
      pyStrIn (pyLower project.name) (pyLower rec) = true) := by
  cases insights with
  | pyNone =>
      refine ⟨?_, ?_, ?_⟩ <;>
        simp [calculate_priority_scores, Scores.mk.injEq] <;> norm_num
  | errDict m =>
      refine ⟨?_, ?_, ?_⟩ <;>
        simp [calculate_priority_scores, Scores.mk.injEq] <;> norm_num
  | reasoningDict r =>
      refine ⟨?_, ?_, ?_⟩
      · by_cases h : r.recommended_focus.any
            (fun rec => pyStrIn (pyLower project.name) (pyLower rec)) = true <;>
          simp [calculate_priority_scores, Scores.mk.injEq, h] <;> norm_num
      · by_cases h : r.recommended_focus.any
            (fun rec => pyStrIn (pyLower project.name) (pyLower rec)) = true <;>
          simp [calculate_priority_scores, h] <;> norm_num
      · simp [List.any_eq_true]

/-- C9: `make_decision` depends only on its `priority_score` argument and
maps it three ways: `EXECUTE_NOW` iff score ≥ 70, `BREAK_DOWN` iff
50 ≤ score < 70, `DEFER` iff score < 50. -/
theorem make_decision_three_way (s : ℚ) (p₁ p₂ : Project)
    (i₁ i₂ : LLMReasoningVal) :
    make_decision s p₁ i₁ = make_decision s p₂ i₂ ∧
    (make_decision s p₁ i₁ = "EXECUTE_NOW" ↔ 70 ≤ s) ∧
    (make_decision s p₁ i₁ = "BREAK_DOWN" ↔ 50 ≤ s ∧ s < 70) ∧
    (make_decision s p₁ i₁ = "DEFER" ↔ s < 50) := by
  have hBE : ("BREAK_DOWN" : String) ≠ "EXECUTE_NOW" := by decide
  have hDE : ("DEFER" : String) ≠ "EXECUTE_NOW" := by decide
  have hEB : ("EXECUTE_NOW" : String) ≠ "BREAK_DOWN" := by decide
  have hDB : ("DEFER" : String) ≠ "BREAK_DOWN" := by decide
  have hED : ("EXECUTE_NOW" : String) ≠ "DEFER" := by decide
  have hBD : ("BREAK_DOWN" : String) ≠ "DEFER" := by decide
  refine ⟨rfl, ?_, ?_, ?_⟩ <;> unfold make_decision <;> split_ifs with h₁ h₂
  · exact ⟨fun _ => h₁, fun _ => rfl⟩
  · exact ⟨fun h => absurd h hBE, fun h => absurd h h₁⟩
  · exact ⟨fun h => absurd h hDE, fun h => absurd h h₁⟩
  · exact ⟨fun h => absurd h hEB, fun h => absurd h.2 (by linarith)⟩
  · exact ⟨fun _ => ⟨h₂, by linarith⟩, fun _ => rfl⟩
  · exact ⟨fun h => absurd h hDB, fun h => absurd h.1 h₂⟩
  · exact ⟨fun h => absurd h hED, fun h => absurd h₁ (by linarith)⟩
  · exact ⟨fun h => absurd h hBD, fun h => absurd h₂ (by linarith)⟩
  · exact ⟨fun _ => by linarith [not_le.mp h₂], fun _ => rfl⟩

lemma scoreDesc_trans : ∀ a b c, scoreDesc a b = true → scoreDesc b c = true →
    scoreDesc a c = true := by
  intro a b c h₁ h₂
  simp only [scoreDesc, decide_eq_true_eq] at *
  exact h₂.trans h₁

lemma scoreDesc_total : ∀ a b, (scoreDesc a b || scoreDesc b a) = true := by
  intro a b
  simp only [scoreDesc, Bool.or_eq_true, decide_eq_true_eq]
  exact le_total _ _

lemma rank_projects_map_result (l : List Analyzed) :
    (rank_projects l).map (fun r => r.result) = (l.mergeSort scoreDesc).take 3 := by
  have hcomp : ((fun r : RankedResult => r.result) ∘
      fun ir : ℕ × Analyzed =>
        ({ result := ir.2, rank := ir.1 + 1 } : RankedResult)) = Prod.snd := rfl
  simp only [rank_projects, List.map_map, hcomp, List.enum_map_snd]

/-- C3: for every list of analyzed projects, the list `ranking_agent`
returns is sorted by non-increasing `priority_score`, has at most 3
elements, carries `rank` fields 1, 2, …, n in output order, and consists
of highest-scoring projects: the input is a permutation of the output's
underlying projects plus a rest whose scores do not exceed any output
score. -/
theorem ranking_agent_sorted_top3 (l : List Analyzed) :
    List.Sorted (fun a b : ℚ => b ≤ a)
      ((rank_projects l).map (fun r => r.result.priority_score)) ∧
    (rank_projects l).length ≤ 3 ∧
    (rank_projects l).map (fun r => r.rank) =
      List.range' 1 (rank_projects l).length ∧
    ∃ rest, (((rank_projects l).map (fun r => r.result)) ++ rest).Perm l ∧
      ∀ x ∈ rest, ∀ y ∈ rank_projects l,
        x.priority_score ≤ y.result.priority_score := by
  have hperm := List.mergeSort_perm l scoreDesc
  have hpair : List.Pairwise (fun a b => scoreDesc a b = true)
      (l.mergeSort scoreDesc) :=
    List.sorted_mergeSort scoreDesc_trans scoreDesc_total l
  have htake : List.Pairwise (fun a b => scoreDesc a b = true)
      ((l.mergeSort scoreDesc).take 3) :=
    hpair.sublist (List.take_sublist 3 _)
  have hsplit : List.Pairwise (fun a b => scoreDesc a b = true)
      ((l.mergeSort scoreDesc).take 3 ++ (l.mergeSort scoreDesc).drop 3) := by
    rw [List.take_append_drop]; exact hpair
  have hlen : (rank_projects l).length = ((l.mergeSort scoreDesc).take 3).length := by
    simp [rank_projects, List.enum_length]
  refine ⟨?_, ?_, ?_, ?_⟩
  · have : (rank_projects l).map (fun r => r.result.priority_score) =
        (((l.mergeSort scoreDesc).take 3).map (fun a => a.priority_score)) := by
      rw [← rank_projects_map_result, List.map_map]
      rfl
    rw [this]
    rw [List.Sorted, List.pairwise_map]
    exact htake.imp (fun h => of_decide_eq_true h)
  · rw [hlen, List.length_take]
    exact min_le_left _ _
  · have hcomp : ((fun r : RankedResult => r.rank) ∘
        fun ir : ℕ × Analyzed =>
          ({ result := ir.2, rank := ir.1 + 1 } : RankedResult)) =
        (fun ir : ℕ × Analyzed => ir.1 + 1) := rfl
    have hfun : (fun x : ℕ => 1 + x) = (fun x : ℕ => x + 1) :=
      funext fun x => Nat.add_comm 1 x
    rw [hlen]
    simp only [rank_projects, List.map_map, hcomp]
    have henum : (fun ir : ℕ × Analyzed => ir.1 + 1) =
        ((fun x : ℕ => x + 1) ∘ Prod.fst) := rfl
    rw [henum, ← List.map_map, List.enum_map_fst, List.range'_eq_map_range, hfun]
  · refine ⟨(l.mergeSort scoreDesc).drop 3, ?_, ?_⟩
    · rw [rank_projects_map_result, List.take_append_drop]
      exact hperm
    · intro x hx y hy
      have hy' : y.result ∈ (l.mergeSort scoreDesc).take 3 := by
        rw [← rank_projects_map_result]
        exact List.mem_map_of_mem (fun r => r.result) hy
      have := (List.pairwise_append.mp hsplit).2.2 y.result hy' x hx
      exact of_decide_eq_true this

/-- Witness for C3 on a concrete list of analyzed projects. -/
theorem ranking_agent_sorted_top3_witness :
    List.Sorted (fun a b : ℚ => b ≤ a)
      ((rank_projects []).map (fun r => r.result.priority_score)) ∧
    (rank_projects []).length ≤ 3 ∧
    (rank_projects []).map (fun r => r.rank) =
      List.range' 1 (rank_projects []).length ∧
    ∃ rest, (((rank_projects []).map (fun r => r.result)) ++ rest).Perm [] ∧
      ∀ x ∈ rest, ∀ y ∈ rank_projects [],
        x.priority_score ≤ y.result.priority_score :=
  ranking_agent_sorted_top3 []

/-- One iteration of the polling loop body of
`AutoSyncMonitor.watch_and_sync` in `demo/auto_sync_lms.py`: given the
recorded `last_hash`, the currently observed file hash (`none` when the
file is missing or unreadable; an md5 hexdigest is never the empty
string, so Python truthiness of `current_hash` is `isSome`) and the
outcome of `sync_top_projects`, return the new `last_hash` and whether a
sync was attempted.  `last_hash` is updated only when the sync
succeeds. -/
def poll_step (lastHash currentHash : Option String) (syncOk : Bool) :
    Option String × Bool :=
  match currentHash with
  | some h =>
    if some h ≠ lastHash then ((if syncOk then some h else lastHash), true)
    else (lastHash, false)
  | none => (lastHash, false)

/-- Trace of the "sync attempted?" flag along a run of the polling loop,
fed at each poll with the observed file hash and the sync outcome. -/
def watch_trace (lastHash : Option String) :
    List (Option String × Bool) → List Bool
  | [] => []
  | (h, ok) :: rest =>
    let st := poll_step lastHash h ok
    st.2 :: watch_trace st.1 rest

/-- C6 counterexample: with `last_hash = "A"`, a poll observes hash `"B"`
and its sync fails; the next poll observes the very same hash `"B"` and a
second sync of that same content is attempted (`[true, true]`), because a
failed sync leaves `last_hash` unchanged — the claim says that after a
failed attempt no further sync of the same content happens. -/
theorem watch_and_sync_retries_after_failure :
    watch_trace (some "A") [(some "B", false), (some "B", false)] =
      [true, true] := rfl

/-- C6 amended: a sync is attempted exactly when the observed hash is
non-`None` and differs from `last_hash`; `last_hash` advances to the
observed hash only when the attempted sync succeeds, so after a failed
attempt the same (unchanged) content triggers another sync attempt at
every subsequent poll until one succeeds. -/
theorem watch_and_sync_amended (last cur : Option String) (ok : Bool) :
    ((poll_step last cur ok).2 = true ↔ cur.isSome = true ∧ cur ≠ last) ∧
    ((poll_step last cur ok).1 =
      if (poll_step last cur ok).2 = true ∧ ok = true then cur else last) ∧
    ((poll_step last cur ok).2 = true → ok = false →
      (poll_step (poll_step last cur ok).1 cur false).2 = true) := by
  cases cur with
  | none => simp [poll_step]
  | some h =>
    by_cases hne : (some h : Option String) = last
    · simp [poll_step, hne]
    · cases ok <;> simp [poll_step, hne]

/-- Witness for the amended C6 at a concrete failed poll. -/
theorem watch_and_sync_amended_witness :
    (((poll_step (some "A") (some "B") false).2 = true ↔
        (some "B" : Option String).isSome = true ∧
        (some "B" : Option String) ≠ some "A") ∧
     ((poll_step (some "A") (some "B") false).1 =
       if (poll_step (some "A") (some "B") false).2 = true ∧ false = true
       then some "B" else some "A") ∧
     ((poll_step (some "A") (some "B") false).2 = true → false = false →
       (poll_step (poll_step (some "A") (some "B") false).1
         (some "B") false).2 = true)) :=
  watch_and_sync_amended (some "A") (some "B") false

/-- Parsed JSON values, as returned by `json.loads`; `Json.null` is
Python `None`. -/
inductive Json where
  | null
  | bool (b : Bool)
  | num (q : ℚ)
  | str (s : String)
  | arr (elems : List Json)
  | obj (fields : List (String × Json))

/-- Field lookup in a JSON object. -/
def jsonGet (j : Json) (k : String) : Option Json :=
  match j with
  | .obj fields => fields.lookup k
  | _ => none

/-- A Knowledge_Graph document as consumed by `generate_proposal`
(it reads `c.get('name', 'Unknown')` and `c.get('description', '')`,
which only affect the prompt string sent to the oracle). -/
structure KGConcept where
  name : Option String
  description : Option String
deriving DecidableEq, Repr

/-- The fallback proposal dict built by the `except` branch of
`generate_proposal`. -/
def fallbackProposal (e : String) : Json :=
  .obj [("title", .str "Fallback Project: Interdisciplinary Exploration"),
        ("rationale", .str ("Unable to access reasoning engine (" ++ e ++
          "). Combining available concepts generically.")),
        ("difficulty", .str "Medium"),
        ("first_step", .str "Review the most recent concepts manually.")]

/-- Function `generate_proposal` from `backend/synthesis_architect.py`.
The hosted Gemini call combined with the `json.loads` parse is the
oracle `api`: `.ok v` is a successful call whose response text parses to
the JSON value `v` (the valid JSON text `null` parses to Python `None`,
i.e. `Json.null`), and `.error e` is any exception raised by the call or
the parse, which the `except` clause turns into the fallback proposal.
An empty concepts list returns `None` before any call is made. -/
def generate_proposal (concepts : List KGConcept)
    (api : Except String Json) : Json :=
  if concepts.isEmpty then Json.null
  else
    match api with
    | .ok v => v
    | .error e => fallbackProposal e

/-- A concrete non-empty concept list for the C8 counterexample. -/
def demoKGConcept : KGConcept :=
  { name := some "Calculus", description := some "Limits and derivatives." }

/-- C8 counterexample: with a non-empty concepts list, a successful
Gemini call whose response body is the valid JSON text `null` makes
`json.loads` return Python `None`, and `generate_proposal` returns it —
refuting "for every non-empty concepts list it never returns None". -/
theorem generate_proposal_null_response :
    [demoKGConcept] ≠ [] ∧
    generate_proposal [demoKGConcept] (.ok .null) = Json.null :=
  ⟨List.cons_ne_nil _ _, rfl⟩

/-- C8 amended: `generate_proposal` returns Python `None` iff the
concepts list is empty or the call succeeds with a response parsing to
JSON `null`; for a non-empty concepts list it is total (every exception
of the call or the parse is caught) and a failing call yields the fixed
fallback proposal, whose `title` is "Fallback Project: Interdisciplinary
Exploration" and whose `difficulty` is "Medium". -/
theorem generate_proposal_amended (concepts : List KGConcept)
    (api : Except String Json) (h : concepts ≠ []) :
    (generate_proposal concepts api = Json.null ↔ api = .ok Json.null) ∧
    (∀ e, api = .error e →
      generate_proposal concepts api = fallbackProposal e ∧
      jsonGet (fallbackProposal e) "title" =
        some (.str "Fallback Project: Interdisciplinary Exploration") ∧
      jsonGet (fallbackProposal e) "difficulty" = some (.str "Medium")) ∧
    generate_proposal [] api = Json.null := by
  have hne : concepts.isEmpty = false := by
    cases concepts with
    | nil => exact absurd rfl h
    | cons a t => rfl
  refine ⟨?_, ?_, rfl⟩
  · cases api with
    | ok v =>
      cases v <;> simp [generate_proposal, hne, fallbackProposal]
    | error e =>
      simp [generate_proposal, hne, fallbackProposal]
  · intro e he
    subst he
    exact ⟨by simp [generate_proposal, hne], rfl, rfl⟩

/-- Witness for the amended C8 at a concrete failing call. -/
theorem generate_proposal_amended_witness :
    (generate_proposal [demoKGConcept] (.error "503") = Json.null ↔
      (.error "503" : Except String Json) = .ok Json.null) ∧
    (∀ e, (.error "503" : Except String Json) = .error e →
      generate_proposal [demoKGConcept] (.error "503") = fallbackProposal e ∧
      jsonGet (fallbackProposal e) "title" =
        some (.str "Fallback Project: Interdisciplinary Exploration") ∧
      jsonGet (fallbackProposal e) "difficulty" = some (.str "Medium")) ∧
    generate_proposal [] (.error "503") = Json.null :=
  generate_proposal_amended [demoKGConcept] (.error "503")
    (List.cons_ne_nil _ _)

/-- A raw concept dict of `seed_demo_data` in `backend/seed_mock_data.py`
(`name`, `category`, `description`; the `timestamp` field is a run-time
clock reading and plays no role in the insertion logic). -/
structure SeedConcept where
  name : String
  category : String
  description : String
deriving DecidableEq, Repr

/-- A Knowledge_Graph document: a concept dict after the loop added its
`embedding` key. -/
structure KGDoc where
  name : String
  category : String
  description : String
  embedding : List ℚ
deriving DecidableEq, Repr

/-- Outcome of the hosted `embed_content` call for a given input text. -/
def EmbedOracle := String → Except String (List ℚ)

/-- Function `get_embedding` from `backend/seed_mock_data.py`: the
embedding values on success, the empty list when the call raises (its
`except` branch). -/
def get_embedding (text : String) (oracle : EmbedOracle) : List ℚ :=
  match oracle text with
  | .ok v => v
  | .error _ => []

/-- The rich text representation `seed_demo_data` embeds for a concept. -/
def text_to_embed (c : SeedConcept) : String :=
  c.name ++ ": " ++ c.description ++ " Category: " ++ c.category

/-- The four hard-coded concepts of `seed_demo_data`. -/
def demoSeedConcepts : List SeedConcept :=
  [{ name := "Calculus", category := "Mathematics",
     description :=
       "Study of continuous change, limits, derivatives, and integrals." },
   { name := "Microeconomics", category := "Economics",
     description :=
       "Study of individual decision making and resource allocation (ECON 1 material)." },
   { name := "Descriptive Statistics", category := "Statistics",
     description :=
       "Methods for summarizing and organizing data (STAT 20 core concept)." },
   { name := "Business Principles", category := "Business",
     description :=
       "Foundational concepts of business administration and management (UGBA 10X)." }]

/-- The document the loop builds for a concept: the concept with its
`embedding` field set to the `get_embedding` result. -/
def embedded_doc (oracle : EmbedOracle) (c : SeedConcept) : KGDoc :=
  { name := c.name, category := c.category, description := c.description,
    embedding := get_embedding (text_to_embed c) oracle }

/-- The Knowledge_Graph insertion loop of `seed_demo_data`: each concept
gets its embedding; `if concept['embedding']:` — a document whose
embedding list is empty (falsy) is skipped, otherwise it is inserted. -/
def insert_concepts (oracle : EmbedOracle) : List SeedConcept → List KGDoc
  | [] => []
  | c :: rest =>
    let doc := embedded_doc oracle c
    if doc.embedding.isEmpty then insert_concepts oracle rest
    else doc :: insert_concepts oracle rest

/-- The Knowledge_Graph contents after `seed_demo_data` runs: the
collection is cleared first, then the four demo concepts are processed
in order. -/
def seed_demo_data_kg (oracle : EmbedOracle) : List KGDoc :=
  insert_concepts oracle demoSeedConcepts

lemma insert_concepts_eq_filter (oracle : EmbedOracle) (cs : List SeedConcept) :
    insert_concepts oracle cs =
      (cs.map (embedded_doc oracle)).filter (fun d => !d.embedding.isEmpty) := by
  induction cs with
  | nil => rfl
  | cons c rest ih =>
    by_cases hemb : (embedded_doc oracle c).embedding.isEmpty
    · simp [insert_concepts, List.filter_cons, hemb, ih]
    · simp [insert_concepts, List.filter_cons, hemb, ih]

/-- C10: every document `seed_demo_data` inserts into the Knowledge_Graph
collection carries a non-empty `embedding`; equivalently, the inserted
documents are exactly the embedded concepts whose embedding list is
non-empty — a concept whose embedding call failed (`get_embedding`
returned `[]`) is skipped and never inserted. -/
theorem seed_demo_data_embedding_invariant (oracle : EmbedOracle) :
    (∀ doc ∈ seed_demo_data_kg oracle, doc.embedding ≠ []) ∧
    seed_demo_data_kg oracle =
      (demoSeedConcepts.map (embedded_doc oracle)).filter
        (fun d => !d.embedding.isEmpty) := by
  refine ⟨?_, insert_concepts_eq_filter oracle demoSeedConcepts⟩
  intro doc hdoc
  rw [seed_demo_data_kg, insert_concepts_eq_filter] at hdoc
  have := (List.mem_filter.mp hdoc).2
  simpa [List.isEmpty_iff] using this

/-- Witness for C10 at a concrete embedding oracle. -/
theorem seed_demo_data_embedding_invariant_witness :
    (∀ doc ∈ seed_demo_data_kg (fun _ => .ok [1]), doc.embedding ≠ []) ∧
    seed_demo_data_kg (fun _ => .ok [1]) =
      (demoSeedConcepts.map (embedded_doc (fun _ => .ok [1]))).filter
        (fun d => !d.embedding.isEmpty) :=
  seed_demo_data_embedding_invariant (fun _ => .ok [1])
